import Mathlib

/-!
Verification of the inner-disc-edge migration force (`src/Inner_edge.c`).

The file embeds the two components of the core in Lean over exact reals:

* `rebx_calculate_planet_trap` — the piecewise planet-trap multiplier
  (C lines 83–99), with its middle branch named `trapCosBranch`.
* `rebx_calculating_orbits_with_inner_disc_edge` — the per-body force
  evaluator (C lines 125–175).  The orbital-element conversion
  (`reb_tools_particle_to_orbit_err`) is an external collaborator from the
  host integrator, so its result is passed in as the pair `(a0, err)`; the
  C code ignores `err` because the error check at lines 146–148 is
  commented out.  The per-body and per-force parameters retrieved via
  `rebx_get_param` are nullable pointers, modelled as `Option ℝ`; a
  dereference of an absent parameter is C undefined behaviour, modelled by
  the evaluator returning `none`.
* `rebx_inner_disc_edge` — the registered entry point (C lines 178–187),
  modelled as the argument bundle it hands to the external
  `rebx_com_force` helper.
-/

/-- Cartesian state of one body, mirroring the fields of `struct
reb_particle` the evaluator reads (position, velocity, mass). -/
structure reb_particle where
  x : ℝ
  y : ℝ
  z : ℝ
  vx : ℝ
  vy : ℝ
  vz : ℝ
  m : ℝ

/-- `struct reb_vec3d`: the acceleration vector returned by the evaluator. -/
structure reb_vec3d where
  x : ℝ
  y : ℝ
  z : ℝ

/-- The middle (transition-window) branch of the trap function, exactly the
expression at C line 91: `5.5 * cos(((dedge*(1+h) - r)*2*M_PI)/(4*h*dedge)) - 4.5`. -/
noncomputable def trapCosBranch (r h dedge : ℝ) : ℝ :=
  5.5 * Real.cos ((dedge * (1.0 + h) - r) * 2 * Real.pi / (4 * h * dedge)) - 4.5

/-- `rebx_calculate_planet_trap` (C lines 83–99): piecewise multiplier.
`if (r > dedge*(1.0+h)) 1.0; else if (dedge*(1.0-h) < r) cosine branch;
else -10.0`. -/
noncomputable def rebx_calculate_planet_trap (r h dedge : ℝ) : ℝ :=
  if dedge * (1.0 + h) < r then 1.0
  else if dedge * (1.0 - h) < r then trapCosBranch r h dedge
  else -10.0

/-- Reciprocal of an optional timescale.  The C code initialises
`tau_e`/`tau_inc` to `INFINITY` and overwrites them when the parameter is
present; a later division of a finite value by the `INFINITY` default
yields `0`, which over exact reals is this function: `1/t` when the
parameter is present, `0` when absent. -/
noncomputable def recipOrZero : Option ℝ → ℝ
  | some t => 1 / t
  | none => 0

/-- `r2 = dx*dx + dy*dy + dz*dz` as computed at C line 142. -/
def rebx_r2 (p source : reb_particle) : ℝ :=
  (p.x - source.x) * (p.x - source.x) + (p.y - source.y) * (p.y - source.y) +
    (p.z - source.z) * (p.z - source.z)

/-- The acceleration computed by the evaluator once `invtau_a` has been
resolved (C lines 136–142 and 161–174): the drag term
`a = dv * invtau_a / 2` plus, when `tau_e < INFINITY || tau_inc < INFINITY`
(i.e. when either parameter is present), the `vdotr`-based
eccentricity/inclination term with `prefac = 2*vdotr/r2/tau_e` and the
`2*dvz/tau_inc` summand. -/
noncomputable def rebx_accel (p source : reb_particle) (invtau_a : ℝ)
    (tau_e tau_inc : Option ℝ) : reb_vec3d :=
  let dvx := p.vx - source.vx
  let dvy := p.vy - source.vy
  let dvz := p.vz - source.vz
  let dx := p.x - source.x
  let dy := p.y - source.y
  let dz := p.z - source.z
  let r2 := rebx_r2 p source
  let ax := dvx * invtau_a / 2
  let ay := dvy * invtau_a / 2
  let az := dvz * invtau_a / 2
  if tau_e.isSome || tau_inc.isSome then
    let vdotr := dx * dvx + dy * dvy + dz * dvz
    let prefac := 2 * vdotr / r2 * recipOrZero tau_e
    { x := ax + prefac * dx
      y := ay + prefac * dy
      z := az + prefac * dz + 2 * dvz * recipOrZero tau_inc }
  else
    { x := ax, y := ay, z := az }

/-- `rebx_calculating_orbits_with_inner_disc_edge` (C lines 125–175).

The five `rebx_get_param` lookups are the five `Option ℝ` arguments, in the
order of C lines 130–134.  `a0`/`err` are the result of the external
orbital-element conversion at C line 145; `err` is ignored because the
check at lines 146–148 is commented out.  When `tau_a` is present the code
computes `invtau_a = rebx_calculate_planet_trap(a0, *h, *dedge)/(*tau_a)`
dereferencing `h` and `dedge` unconditionally (C line 152); if either is
absent this dereferences a null pointer — undefined behaviour, modelled as
`none`.  When `tau_a` is absent, `invtau_a` keeps its initial value `0`. -/
noncomputable def rebx_calculating_orbits_with_inner_disc_edge
    (p source : reb_particle)
    (tau_a tau_e tau_inc inner_disc_edge disc_edge_width : Option ℝ)
    (a0 : ℝ) (err : Int) : Option reb_vec3d :=
  match tau_a with
  | none => some (rebx_accel p source 0 tau_e tau_inc)
  | some ta =>
    match disc_edge_width, inner_disc_edge with
    | some h, some dedge =>
        some (rebx_accel p source (rebx_calculate_planet_trap a0 h dedge / ta)
          tau_e tau_inc)
    | _, _ => none

/-- `enum REBX_COORDINATES`: the coordinate frames understood by the
external `rebx_com_force` helper. -/
inductive REBX_COORDINATES where
  | jacobi
  | barycentric
  | particle
deriving DecidableEq

/-- The argument bundle `rebx_inner_disc_edge` passes to the external
`rebx_com_force` helper (C line 186): the resolved coordinate frame, the
`back_reactions_inclusive` flag and the reference-body name. -/
structure rebx_com_force_call where
  coordinates : REBX_COORDINATES
  back_reactions_inclusive : Bool
  reference_name : String

/-- `rebx_inner_disc_edge` (C lines 178–187): reads the optional per-force
`coordinates` parameter, defaulting to Jacobi when absent, and always
passes `back_reactions_inclusive = 1` and reference name `"primary"` to
`rebx_com_force` together with the per-body evaluator
`rebx_calculating_orbits_with_inner_disc_edge`. -/
def rebx_inner_disc_edge (coordinates_param : Option REBX_COORDINATES) :
    rebx_com_force_call :=
  let coordinates := match coordinates_param with
    | none => REBX_COORDINATES.jacobi
    | some c => c
  { coordinates := coordinates
    back_reactions_inclusive := true
    reference_name := "primary" }

/-- Sample body used by concrete instantiations: unit displacement along x,
unit relative velocity along y with respect to the reference body. -/
def pSample : reb_particle :=
  { x := 1, y := 0, z := 0, vx := 0, vy := 1, vz := 0, m := 0.001 }

/-- Sample reference body at the origin, at rest. -/
def sourceSample : reb_particle :=
  { x := 0, y := 0, z := 0, vx := 0, vy := 0, vz := 0, m := 1 }

/-- The cosine branch evaluates to `1` at the outer boundary
`r = dedge*(1+h)`: the cosine argument is `0` there. -/
theorem trapCosBranch_outer (h dedge : ℝ) :
    trapCosBranch (dedge * (1.0 + h)) h dedge = 1.0 := by
  unfold trapCosBranch
  rw [sub_self, zero_mul, zero_mul, zero_div, Real.cos_zero]
  norm_num

/-- The cosine branch evaluates to `-10` at the inner boundary
`r = dedge*(1-h)`: the cosine argument is `π` there. -/
theorem trapCosBranch_inner (h dedge : ℝ) (hh : h ≠ 0) (hd : dedge ≠ 0) :
    trapCosBranch (dedge * (1.0 - h)) h dedge = -10.0 := by
  unfold trapCosBranch
  have harg : (dedge * (1.0 + h) - dedge * (1.0 - h)) * 2 * Real.pi /
      (4 * h * dedge) = Real.pi := by
    field_simp
    ring
  rw [harg, Real.cos_pi]
  norm_num

/-- The cosine branch, as a function of `r`, is continuous. -/
theorem trapCosBranch_continuous (h dedge : ℝ) :
    Continuous fun r => trapCosBranch r h dedge := by
  unfold trapCosBranch
  have h1 : Continuous fun r : ℝ =>
      (dedge * (1.0 + h) - r) * 2 * Real.pi / (4 * h * dedge) :=
    (((continuous_const.sub continuous_id).mul continuous_const).mul
      continuous_const).div_const _
  exact (continuous_const.mul (Real.continuous_cos.comp h1)).sub continuous_const

/-- The trap function evaluates to `1` exactly at the outer boundary
`r = dedge*(1+h)` (taken by the cosine branch there). -/
theorem planet_trap_at_outer (h dedge : ℝ) (hh : 0 < h) (hd : 0 < dedge) :
    rebx_calculate_planet_trap (dedge * (1.0 + h)) h dedge = 1.0 := by
  rw [rebx_calculate_planet_trap, if_neg (lt_irrefl _),
    if_pos (by nlinarith), trapCosBranch_outer]

/-- The trap function evaluates to `-10` exactly at the inner boundary
`r = dedge*(1-h)` (taken by the floor branch there). -/
theorem planet_trap_at_inner (h dedge : ℝ) (hh : 0 < h) (hd : 0 < dedge) :
    rebx_calculate_planet_trap (dedge * (1.0 - h)) h dedge = -10.0 := by
  have hwin : dedge * (1.0 - h) < dedge * (1.0 + h) := by nlinarith
  rw [rebx_calculate_planet_trap, if_neg (not_lt.mpr hwin.le),
    if_neg (lt_irrefl _)]

/-- On the closed window `[dedge*(1-h), dedge*(1+h)]` the trap function
agrees with its cosine branch (at the inner endpoint both are `-10`). -/
theorem planet_trap_eq_cos_on_window (r h dedge : ℝ) (hh : 0 < h)
    (hd : 0 < dedge) (hr1 : dedge * (1.0 - h) ≤ r)
    (hr2 : r ≤ dedge * (1.0 + h)) :
    rebx_calculate_planet_trap r h dedge = trapCosBranch r h dedge := by
  rcases eq_or_lt_of_le hr1 with heq | hlt
  · rw [← heq, planet_trap_at_inner h dedge hh hd,
      trapCosBranch_inner h dedge hh.ne' hd.ne']
  · rw [rebx_calculate_planet_trap, if_neg (not_lt.mpr hr2), if_pos hlt]

/-- C9: if the per-force `coordinates` parameter is absent the Jacobi frame
is used; if present the configured frame is used; and back-reaction onto
the reference body is always included. -/
theorem inner_disc_edge_dispatch :
    (rebx_inner_disc_edge none).coordinates = REBX_COORDINATES.jacobi ∧
    (∀ c, (rebx_inner_disc_edge (some c)).coordinates = c) ∧
    (∀ o, (rebx_inner_disc_edge o).back_reactions_inclusive = true) := by
  refine ⟨rfl, fun c => rfl, fun o => ?_⟩
  cases o <;> rfl

/-- C3: for every `r` and every `h > 0`, `dedge > 0`, the trap function
returns exactly `1.0` when `r > dedge*(1+h)`, the cosine expression when
`dedge*(1-h) < r ≤ dedge*(1+h)`, and `-10.0` when `r ≤ dedge*(1-h)`; in
particular `trap(1.0, 0.1, 1.0) = -4.5` (r at the window centre `dedge`),
`trap(2.0, 0.1, 1.0) = 1.0` and `trap(0, 0.1, 1.0) = -10.0`. -/
theorem planet_trap_branches (r h dedge : ℝ) (hh : 0 < h) (hd : 0 < dedge) :
    ((dedge * (1.0 + h) < r → rebx_calculate_planet_trap r h dedge = 1.0) ∧
     (dedge * (1.0 - h) < r ∧ r ≤ dedge * (1.0 + h) →
       rebx_calculate_planet_trap r h dedge =
         5.5 * Real.cos ((dedge * (1.0 + h) - r) * 2 * Real.pi /
           (4 * h * dedge)) - 4.5) ∧
     (r ≤ dedge * (1.0 - h) → rebx_calculate_planet_trap r h dedge = -10.0)) ∧
    rebx_calculate_planet_trap 1.0 0.1 1.0 = -4.5 ∧
    rebx_calculate_planet_trap 2.0 0.1 1.0 = 1.0 ∧
    rebx_calculate_planet_trap 0 0.1 1.0 = -10.0 := by
  have hwin : dedge * (1.0 - h) ≤ dedge * (1.0 + h) := by nlinarith
  refine ⟨⟨fun hr => ?_, fun hr => ?_, fun hr => ?_⟩, ?_, ?_, ?_⟩
  · rw [rebx_calculate_planet_trap, if_pos hr]
  · rw [rebx_calculate_planet_trap, if_neg (not_lt.mpr hr.2), if_pos hr.1]
    rfl
  · rw [rebx_calculate_planet_trap,
      if_neg (not_lt.mpr (le_trans hr hwin)), if_neg (not_lt.mpr hr)]
  · rw [rebx_calculate_planet_trap, if_neg (by norm_num), if_pos (by norm_num)]
    unfold trapCosBranch
    rw [show ((1.0 : ℝ) * (1.0 + 0.1) - 1.0) * 2 * Real.pi / (4 * 0.1 * 1.0)
        = Real.pi / 2 by ring, Real.cos_pi_div_two]
    norm_num
  · rw [rebx_calculate_planet_trap, if_pos (by norm_num)]
  · rw [rebx_calculate_planet_trap, if_neg (by norm_num), if_neg (by norm_num)]

/-- Witness for C3 at `r = 2`, `h = 0.1`, `dedge = 1`. -/
theorem planet_trap_branches_witness :
    rebx_calculate_planet_trap 2.0 0.1 1.0 = 1.0 :=
  (planet_trap_branches 2.0 0.1 1.0 (by norm_num) (by norm_num)).1.1
    (by norm_num)

/-- C4: for every `r ≥ 0` and every `h > 0`, `dedge > 0`, the trap value
lies in the closed interval `[-10, 1]`. -/
theorem planet_trap_bounds (r h dedge : ℝ) (hr : 0 ≤ r) (hh : 0 < h)
    (hd : 0 < dedge) :
    -10 ≤ rebx_calculate_planet_trap r h dedge ∧
      rebx_calculate_planet_trap r h dedge ≤ 1 := by
  unfold rebx_calculate_planet_trap trapCosBranch
  split_ifs with h1 h2
  · norm_num
  · have hc1 := Real.cos_le_one
      ((dedge * (1.0 + h) - r) * 2 * Real.pi / (4 * h * dedge))
    have hc2 := Real.neg_one_le_cos
      ((dedge * (1.0 + h) - r) * 2 * Real.pi / (4 * h * dedge))
    constructor <;> linarith
  · norm_num

/-- Witness for C4 at `r = 1`, `h = 0.1`, `dedge = 1`. -/
theorem planet_trap_bounds_witness :
    -10 ≤ rebx_calculate_planet_trap 1.0 0.1 1.0 ∧
      rebx_calculate_planet_trap 1.0 0.1 1.0 ≤ 1 :=
  planet_trap_bounds 1.0 0.1 1.0 (by norm_num) (by norm_num) (by norm_num)

/-- C5: for fixed `h > 0`, `dedge > 0`, the three branches tile the real
line, the cosine branch agrees with the outer constant `1` at
`r = dedge*(1+h)` and with the floor `-10` at `r = dedge*(1-h)`, and the
trap function is continuous at both boundary radii. -/
theorem planet_trap_continuous_at_edges (h dedge : ℝ) (hh : 0 < h)
    (hd : 0 < dedge) :
    (∀ r : ℝ, dedge * (1.0 + h) < r ∨
      (dedge * (1.0 - h) < r ∧ r ≤ dedge * (1.0 + h)) ∨
      r ≤ dedge * (1.0 - h)) ∧
    trapCosBranch (dedge * (1.0 + h)) h dedge = 1.0 ∧
    rebx_calculate_planet_trap (dedge * (1.0 + h)) h dedge = 1.0 ∧
    trapCosBranch (dedge * (1.0 - h)) h dedge = -10.0 ∧
    rebx_calculate_planet_trap (dedge * (1.0 - h)) h dedge = -10.0 ∧
    ContinuousAt (fun r => rebx_calculate_planet_trap r h dedge)
      (dedge * (1.0 + h)) ∧
    ContinuousAt (fun r => rebx_calculate_planet_trap r h dedge)
      (dedge * (1.0 - h)) := by
  have hwin : dedge * (1.0 - h) < dedge * (1.0 + h) := by nlinarith
  refine ⟨?_, trapCosBranch_outer h dedge, planet_trap_at_outer h dedge hh hd,
    trapCosBranch_inner h dedge hh.ne' hd.ne',
    planet_trap_at_inner h dedge hh hd, ?_, ?_⟩
  · intro r
    rcases lt_or_le (dedge * (1.0 + h)) r with hr | hr
    · exact Or.inl hr
    · rcases lt_or_le (dedge * (1.0 - h)) r with hr2 | hr2
      · exact Or.inr (Or.inl ⟨hr2, hr⟩)
      · exact Or.inr (Or.inr hr2)
  · rw [continuousAt_iff_continuous_left_right]
    constructor
    · refine ((trapCosBranch_continuous h dedge).continuousWithinAt).congr_of_eventuallyEq
        ?_ ?_
      · have hmem : Set.Ioi (dedge * (1.0 - h)) ∈
            nhdsWithin (dedge * (1.0 + h)) (Set.Iic (dedge * (1.0 + h))) :=
          nhdsWithin_le_nhds (Ioi_mem_nhds hwin)
        filter_upwards [hmem, self_mem_nhdsWithin] with x hx1 hx2
        exact planet_trap_eq_cos_on_window x h dedge hh hd (le_of_lt hx1) hx2
      · rw [planet_trap_at_outer h dedge hh hd, trapCosBranch_outer]
    · have hconst : ContinuousWithinAt (fun _ : ℝ => (1.0 : ℝ))
          (Set.Ici (dedge * (1.0 + h))) (dedge * (1.0 + h)) :=
        continuousWithinAt_const
      refine hconst.congr ?_ ?_
      · intro x hx
        rcases eq_or_lt_of_le hx with heq | hlt
        · rw [← heq, planet_trap_at_outer h dedge hh hd]
        · rw [rebx_calculate_planet_trap, if_pos hlt]
      · rw [planet_trap_at_outer h dedge hh hd]
  · rw [continuousAt_iff_continuous_left_right]
    constructor
    · have hconst : ContinuousWithinAt (fun _ : ℝ => (-10.0 : ℝ))
          (Set.Iic (dedge * (1.0 - h))) (dedge * (1.0 - h)) :=
        continuousWithinAt_const
      refine hconst.congr ?_ ?_
      · intro x hx
        have hxb : ¬ dedge * (1.0 + h) < x := not_lt.mpr (le_trans hx hwin.le)
        rw [rebx_calculate_planet_trap, if_neg hxb, if_neg (not_lt.mpr hx)]
      · rw [planet_trap_at_inner h dedge hh hd]
    · refine ((trapCosBranch_continuous h dedge).continuousWithinAt).congr_of_eventuallyEq
        ?_ ?_
      · have hmem : Set.Iio (dedge * (1.0 + h)) ∈
            nhdsWithin (dedge * (1.0 - h)) (Set.Ici (dedge * (1.0 - h))) :=
          nhdsWithin_le_nhds (Iio_mem_nhds hwin)
        filter_upwards [hmem, self_mem_nhdsWithin] with x hx1 hx2
        exact planet_trap_eq_cos_on_window x h dedge hh hd hx2 (le_of_lt hx1)
      · rw [planet_trap_at_inner h dedge hh hd,
          trapCosBranch_inner h dedge hh.ne' hd.ne']

/-- Witness for C5 at `h = 0.1`, `dedge = 1`: continuity at the outer
boundary radius. -/
theorem planet_trap_continuous_at_edges_witness :
    ContinuousAt (fun r => rebx_calculate_planet_trap r 0.1 1.0)
      (1.0 * (1.0 + 0.1)) :=
  (planet_trap_continuous_at_edges 0.1 1.0 (by norm_num)
    (by norm_num)).2.2.2.2.2.1

/-- C6: for fixed `h > 0`, `dedge > 0` and radii
`dedge*(1-h) ≤ r1 ≤ r2 ≤ dedge*(1+h)`, the trap multiplier satisfies
`trap r1 ≤ trap r2`: it is non-increasing as `r` decreases across the
window (the cosine argument spans one half-period). -/
theorem planet_trap_monotone_window (h dedge r1 r2 : ℝ) (hh : 0 < h)
    (hd : 0 < dedge) (h1 : dedge * (1.0 - h) ≤ r1) (h12 : r1 ≤ r2)
    (h2 : r2 ≤ dedge * (1.0 + h)) :
    rebx_calculate_planet_trap r1 h dedge ≤
      rebx_calculate_planet_trap r2 h dedge := by
  rw [planet_trap_eq_cos_on_window r1 h dedge hh hd h1
      (le_trans h12 h2),
    planet_trap_eq_cos_on_window r2 h dedge hh hd (le_trans h1 h12) h2]
  unfold trapCosBranch
  have hden : (0 : ℝ) < 4 * h * dedge := by positivity
  have hA2_nonneg :
      0 ≤ (dedge * (1.0 + h) - r2) * 2 * Real.pi / (4 * h * dedge) := by
    apply div_nonneg _ hden.le
    nlinarith [Real.pi_pos.le]
  have hA1_le_pi :
      (dedge * (1.0 + h) - r1) * 2 * Real.pi / (4 * h * dedge) ≤ Real.pi := by
    rw [div_le_iff₀ hden]
    nlinarith [Real.pi_pos]
  have hA21 : (dedge * (1.0 + h) - r2) * 2 * Real.pi / (4 * h * dedge) ≤
      (dedge * (1.0 + h) - r1) * 2 * Real.pi / (4 * h * dedge) := by
    apply div_le_div_of_nonneg_right _ hden.le
    nlinarith [Real.pi_pos.le]
  have hcos := Real.cos_le_cos_of_nonneg_of_le_pi hA2_nonneg hA1_le_pi hA21
  linarith

/-- With `tau_e` and `tau_inc` both absent, the conditional block at C
lines 167–173 is not entered, so the acceleration is the drag term alone. -/
theorem rebx_accel_no_einc (p source : reb_particle) (invtau_a : ℝ) :
    rebx_accel p source invtau_a none none =
      { x := (p.vx - source.vx) * invtau_a / 2
        y := (p.vy - source.vy) * invtau_a / 2
        z := (p.vz - source.vz) * invtau_a / 2 } := rfl

/-- Witness for C6 at `h = 0.1`, `dedge = 1`, `r1 = 0.95`, `r2 = 1.05`. -/
theorem planet_trap_monotone_window_witness :
    rebx_calculate_planet_trap 0.95 0.1 1.0 ≤
      rebx_calculate_planet_trap 1.05 0.1 1.0 :=
  planet_trap_monotone_window 0.1 1.0 0.95 1.05 (by norm_num) (by norm_num)
    (by norm_num) (by norm_num) (by norm_num)

/-- C7: with `tau_a` present, `tau_e` and `tau_inc` both absent and the edge
parameters present and positive, the returned acceleration is `k` times the
relative velocity componentwise, with `k = trap(a0,h,dedge)/(2*tau_a)`. -/
theorem evaluator_parallel_to_relative_velocity
    (p source : reb_particle) (ta hv dv a0 : ℝ) (err : Int)
    (hhv : 0 < hv) (hdv : 0 < dv) :
    ∃ k : ℝ,
      rebx_calculating_orbits_with_inner_disc_edge p source (some ta) none none
          (some dv) (some hv) a0 err =
        some { x := k * (p.vx - source.vx)
               y := k * (p.vy - source.vy)
               z := k * (p.vz - source.vz) } ∧
      k = rebx_calculate_planet_trap a0 hv dv / (2 * ta) := by
  refine ⟨rebx_calculate_planet_trap a0 hv dv / (2 * ta), ?_, rfl⟩
  rw [show rebx_calculating_orbits_with_inner_disc_edge p source (some ta) none
      none (some dv) (some hv) a0 err =
      some (rebx_accel p source (rebx_calculate_planet_trap a0 hv dv / ta)
        none none) from rfl, rebx_accel_no_einc]
  simp only [Option.some.injEq, reb_vec3d.mk.injEq]
  refine ⟨by ring, by ring, by ring⟩

/-- Witness for C7 with the sample bodies, `tau_a = 100`, `dedge = 1`,
`h = 0.1`, `a0 = 2`. -/
theorem evaluator_parallel_to_relative_velocity_witness :
    ∃ k : ℝ,
      rebx_calculating_orbits_with_inner_disc_edge pSample sourceSample
          (some 100) none none (some 1.0) (some 0.1) 2.0 0 =
        some { x := k * (pSample.vx - sourceSample.vx)
               y := k * (pSample.vy - sourceSample.vy)
               z := k * (pSample.vz - sourceSample.vz) } ∧
      k = rebx_calculate_planet_trap 2.0 0.1 1.0 / (2 * 100) :=
  evaluator_parallel_to_relative_velocity pSample sourceSample 100 0.1 1.0 2.0
    0 (by norm_num) (by norm_num)

/-- C8: with `tau_e` and `tau_inc` both absent the `vdotr`-based block
contributes nothing (the output is the drag term alone); with `tau_a`
absent, `invtau_a = 0`, so the output vanishes entirely when no channel is
set and is independent of the trap parameters and of `a0` in general. -/
theorem evaluator_absent_channels
    (p source : reb_particle) (ta a0 a0' : ℝ) (hv dv : ℝ) (err err' : Int)
    (te ti d h d' h' : Option ℝ) :
    (rebx_calculating_orbits_with_inner_disc_edge p source (some ta) none none
        (some dv) (some hv) a0 err =
      some { x := (p.vx - source.vx) *
                (rebx_calculate_planet_trap a0 hv dv / ta) / 2
             y := (p.vy - source.vy) *
                (rebx_calculate_planet_trap a0 hv dv / ta) / 2
             z := (p.vz - source.vz) *
                (rebx_calculate_planet_trap a0 hv dv / ta) / 2 }) ∧
    (rebx_calculating_orbits_with_inner_disc_edge p source none none none d h
        a0 err = some { x := 0, y := 0, z := 0 }) ∧
    (rebx_calculating_orbits_with_inner_disc_edge p source none te ti d h a0
        err =
      rebx_calculating_orbits_with_inner_disc_edge p source none te ti d' h'
        a0' err') := by
  refine ⟨?_, ?_, rfl⟩
  · rw [show rebx_calculating_orbits_with_inner_disc_edge p source (some ta)
        none none (some dv) (some hv) a0 err =
        some (rebx_accel p source (rebx_calculate_planet_trap a0 hv dv / ta)
          none none) from rfl, rebx_accel_no_einc]
  · rw [show rebx_calculating_orbits_with_inner_disc_edge p source none none
        none d h a0 err = some (rebx_accel p source 0 none none) from rfl,
      rebx_accel_no_einc]
    simp only [Option.some.injEq, reb_vec3d.mk.injEq]
    norm_num

/-- C10: the `vdotr` prefactor divides by `r2 = dx*dx+dy*dy+dz*dz` with no
guard, so it is safe exactly when the body's position differs from the
reference body's position: under that precondition `r2` is strictly
positive, hence nonzero, and the division never divides by zero. -/
theorem r2_positive_of_distinct_positions (p source : reb_particle)
    (hne : p.x ≠ source.x ∨ p.y ≠ source.y ∨ p.z ≠ source.z) :
    0 < rebx_r2 p source ∧ rebx_r2 p source ≠ 0 := by
  have hpos : 0 < rebx_r2 p source := by
    unfold rebx_r2
    rcases hne with hc | hc | hc
    · have h1 : 0 < (p.x - source.x) * (p.x - source.x) :=
        mul_self_pos.mpr (sub_ne_zero.mpr hc)
      nlinarith [mul_self_nonneg (p.y - source.y),
        mul_self_nonneg (p.z - source.z)]
    · have h1 : 0 < (p.y - source.y) * (p.y - source.y) :=
        mul_self_pos.mpr (sub_ne_zero.mpr hc)
      nlinarith [mul_self_nonneg (p.x - source.x),
        mul_self_nonneg (p.z - source.z)]
    · have h1 : 0 < (p.z - source.z) * (p.z - source.z) :=
        mul_self_pos.mpr (sub_ne_zero.mpr hc)
      nlinarith [mul_self_nonneg (p.x - source.x),
        mul_self_nonneg (p.y - source.y)]
  exact ⟨hpos, hpos.ne'⟩

/-- Witness for C10 with the sample bodies (positions differ along x). -/
theorem r2_positive_of_distinct_positions_witness :
    0 < rebx_r2 pSample sourceSample ∧ rebx_r2 pSample sourceSample ≠ 0 :=
  r2_positive_of_distinct_positions pSample sourceSample
    (Or.inl (by norm_num [pSample, sourceSample]))

/-- C1 counterexample: with `tau_a` present and `disc_edge_width` absent,
the evaluator does not fall back to `invtau_a = 0`; it dereferences the
absent parameter (C line 152), so its result is undefined (`none`), not the
well-defined acceleration the claim describes. -/
theorem evaluator_missing_width_counterexample :
    rebx_calculating_orbits_with_inner_disc_edge pSample sourceSample
        (some 100) none none (some 1.0) none 2.0 0 = none ∧
    rebx_calculating_orbits_with_inner_disc_edge pSample sourceSample
        (some 100) none none (some 1.0) none 2.0 0 ≠
      some (rebx_accel pSample sourceSample 0 none none) :=
  ⟨rfl, fun hcon => Option.noConfusion hcon⟩

/-- C1 amended: if `tau_a` is present and `inner_disc_edge` or
`disc_edge_width` is absent, the evaluator dereferences a missing parameter
and its result is undefined (modelled `none`); `invtau_a = 0` is used only
when `tau_a` itself is absent, in which case the acceleration is
well-defined for any edge parameters. -/
theorem evaluator_tau_a_requires_edge_params
    (p source : reb_particle) (ta a0 : ℝ) (err : Int) (te ti d h : Option ℝ)
    (habs : h = none ∨ d = none) :
    rebx_calculating_orbits_with_inner_disc_edge p source (some ta) te ti d h
        a0 err = none ∧
    rebx_calculating_orbits_with_inner_disc_edge p source none te ti d h a0
        err = some (rebx_accel p source 0 te ti) := by
  constructor
  · rcases habs with hcase | hcase
    · subst hcase
      rcases d with _ | dv <;> rfl
    · subst hcase
      rcases h with _ | hv <;> rfl
  · rfl

/-- Witness for the amended C1 with the sample bodies: width absent. -/
theorem evaluator_tau_a_requires_edge_params_witness :
    rebx_calculating_orbits_with_inner_disc_edge pSample sourceSample
        (some 100) none none (some 1.0) none 2.0 0 = none ∧
    rebx_calculating_orbits_with_inner_disc_edge pSample sourceSample none
        none none (some 1.0) none 2.0 0 =
      some (rebx_accel pSample sourceSample 0 none none) :=
  evaluator_tau_a_requires_edge_params pSample sourceSample 100 2.0 0 none
    none (some 1.0) none (Or.inl rfl)

/-- C2: the error flag of the orbital-element conversion is ignored (the
check at C lines 146–148 is commented out): the result never depends on
`err`, and on a failed conversion (`err = 1`) with `tau_a` present the
radial-damping channel is NOT skipped — the trap function is evaluated at
the conversion's semimajor axis and produces a nonzero acceleration. -/
theorem evaluator_ignores_conversion_error :
    (∀ (p source : reb_particle) (ta te ti d h : Option ℝ) (a0 : ℝ)
      (e1 e2 : Int),
      rebx_calculating_orbits_with_inner_disc_edge p source ta te ti d h a0
          e1 =
        rebx_calculating_orbits_with_inner_disc_edge p source ta te ti d h a0
          e2) ∧
    rebx_calculating_orbits_with_inner_disc_edge pSample sourceSample
        (some 100) none none (some 1.0) (some 0.1) 2.0 1 =
      some { x := 0, y := 1 / 200, z := 0 } ∧
    rebx_calculating_orbits_with_inner_disc_edge pSample sourceSample
        (some 100) none none (some 1.0) (some 0.1) 2.0 1 ≠
      some { x := 0, y := 0, z := 0 } := by
  have hval : rebx_calculating_orbits_with_inner_disc_edge pSample
      sourceSample (some 100) none none (some 1.0) (some 0.1) 2.0 1 =
      some { x := 0, y := 1 / 200, z := 0 } := by
    rw [show rebx_calculating_orbits_with_inner_disc_edge pSample sourceSample
        (some 100) none none (some 1.0) (some 0.1) 2.0 1 =
        some (rebx_accel pSample sourceSample
          (rebx_calculate_planet_trap 2.0 0.1 1.0 / 100) none none) from rfl,
      rebx_accel_no_einc, rebx_calculate_planet_trap, if_pos (by norm_num)]
    simp only [Option.some.injEq, reb_vec3d.mk.injEq, pSample, sourceSample]
    norm_num
  refine ⟨fun p source ta te ti d h a0 e1 e2 => rfl, hval, ?_⟩
  rw [hval]
  intro hcon
  simp only [Option.some.injEq, reb_vec3d.mk.injEq] at hcon
  norm_num at hcon
